import Mathlib

/-!
Formal model of the biathlon event-processing program (src/main.go).

Times are modelled in milliseconds on an absolute axis whose origin is the
date produced by Go's time.Parse with a clock-only layout (0000-01-01).
The zero value of Go's time.Time (0001-01-01) lies 366 days after that
origin, so an unset time field is the constant zeroTime below, while every
parsed clock value lies in [0, 86400000).  Durations are milliseconds as
integers; Go's int(...) truncation and % on integers are Int.tdiv/Int.tmod.
Runtime panics (out-of-range indexing / slicing) and returned errors are
distinguished by the two constructors of GoError.
-/

namespace Biathlon

/-- Milliseconds in one day. -/
def msPerDay : Int := 86400000

/-- Go's zero time.Time (0001-01-01 00:00:00), measured in milliseconds from the
0000-01-01 base date that time.Parse with layout "15:04:05.000" produces
(year 0 is a leap year, hence 366 days). -/
def zeroTime : Int := 31622400000

/-- Outcome of one handleEvent call that does not return a ledger: either the
error value the Go function returns (the spec's MalformedEvent) or a runtime
panic such as index-out-of-range. -/
inductive GoError where
  | malformed (msg : String)
  | runtimePanic (msg : String)
deriving Repr, DecidableEq

instance instDecEqExceptGoErr {β : Type} [DecidableEq β] : DecidableEq (Except GoError β) := by
  intro a b
  cases a <;> cases b
  case error.error x y =>
    exact if h : x = y then .isTrue (by rw [h]) else .isFalse (fun hh => h (Except.error.inj hh))
  case error.ok x y => exact .isFalse (fun hh => Except.noConfusion hh)
  case ok.error x y => exact .isFalse (fun hh => Except.noConfusion hh)
  case ok.ok x y =>
    exact if h : x = y then .isTrue (by rw [h]) else .isFalse (fun hh => h (Except.ok.inj hh))

/-- Per-competitor record, mirroring the competitorStat struct.  The source
struct additionally carries totalTime, lapSpeeds and penaltySpeeds, which are
only ever written (never read) by the program and are omitted here. -/
structure competitorStat where
  registered : Bool
  startTime : Int
  actualStart : Int
  lapsTime : List (Int × Int)
  penaltyTime : List (Int × Int)
  hits : Int
  notStarted : Bool
  notFinished : Bool
  finishTime : Int
  comment : String
deriving Repr, DecidableEq

/-- The record created on first mention of a competitor id: empty interval
lists, zero hit count and zero values everywhere else. -/
def newCompetitorStat : competitorStat :=
  { registered := false
    startTime := zeroTime
    actualStart := zeroTime
    lapsTime := []
    penaltyTime := []
    hits := 0
    notStarted := false
    notFinished := false
    finishTime := zeroTime
    comment := "" }

abbrev Ledger := List (String × competitorStat)

def lookupStat : Ledger → String → Option competitorStat
  | [], _ => none
  | p :: rest, id => if p.1 = id then some p.2 else lookupStat rest id

/-- Record lookup with the Go map's behaviour of yielding the zero value for a
missing key (the program only reads a key after inserting it). -/
def statOf (m : Ledger) (id : String) : competitorStat :=
  (lookupStat m id).getD newCompetitorStat

/-- The lazy insertion performed by handleEvent before dispatching on the kind. -/
def ensureStat (m : Ledger) (id : String) : Ledger :=
  if (lookupStat m id).isSome then m else m ++ [(id, newCompetitorStat)]

/-- In-place mutation through the map's pointer: replace the value stored at a
key, leaving every other entry untouched. -/
def setStat : Ledger → String → competitorStat → Ledger
  | [], _, _ => []
  | p :: rest, id, s => if p.1 = id then (p.1, s) :: setStat rest id s else p :: setStat rest id s

/-- strings.Split(event, " "): split at every single space, keeping empty
fields, never returning an empty list. -/
def splitOnSpace : List Char → List (List Char)
  | [] => [[]]
  | c :: rest =>
    let r := splitOnSpace rest
    if c = Char.ofNat 32 then [] :: r
    else
      match r with
      | [] => [[c]]
      | h :: t => (c :: h) :: t

def goSplit (s : String) : List String := (splitOnSpace s.data).map String.mk

def digit? (c : Char) : Option Int :=
  if c.isDigit then some ((c.toNat : Int) - 48) else none

/-- time.Parse with layout "15:04:05.000": exactly the shape HH:MM:SS.mmm with
in-range hour, minute and second; yields milliseconds since midnight of the
0000-01-01 base date. -/
def parseClock12 (s : String) : Option Int :=
  match s.data with
  | [h1, h2, c1, m1, m2, c2, q1, q2, dot, x1, x2, x3] =>
    if c1 = ':' ∧ c2 = ':' ∧ dot = '.' then do
      let a1 ← digit? h1
      let a2 ← digit? h2
      let b1 ← digit? m1
      let b2 ← digit? m2
      let e1 ← digit? q1
      let e2 ← digit? q2
      let f1 ← digit? x1
      let f2 ← digit? x2
      let f3 ← digit? x3
      let hh := a1 * 10 + a2
      let mm := b1 * 10 + b2
      let ss := e1 * 10 + e2
      let ms := f1 * 100 + f2 * 10 + f3
      if hh ≤ 23 ∧ mm ≤ 59 ∧ ss ≤ 59 then
        some (hh * 3600000 + mm * 60000 + ss * 1000 + ms)
      else none
    else none
  | _ => none

def parseDigitList (l : List Char) : Option Int :=
  l.foldlM (fun acc c => (digit? c).map (fun d => acc * 10 + d)) 0

/-- strconv.Atoi: optional sign followed by at least one digit. -/
def goAtoi (s : String) : Option Int :=
  match s.data with
  | [] => none
  | '+' :: rest => if rest.isEmpty then none else parseDigitList rest
  | '-' :: rest => if rest.isEmpty then none else (parseDigitList rest).map (fun n => -n)
  | l => parseDigitList l

/-- timeStr[1:len(timeStr)-1]: drop the first and last character. -/
def stripOuter (s : String) : String := String.mk ((s.data.drop 1).dropLast)

/-- stat.xs[len(stat.xs)-1][1] = t on a nonempty list: overwrite the second
component of the last interval. -/
def setLastEnd (l : List (Int × Int)) (t : Int) : List (Int × Int) :=
  l.dropLast ++ (match l.getLast? with
    | none => []
    | some p => [(p.1, t)])

/-- The duration that handleEvent derives from the startDelta time value by
summing its hour, minute, second and nanosecond components (here at
millisecond precision, for a value in [0, msPerDay)). -/
def startDeltaDuration (startDelta : Int) : Int :=
  (startDelta / 3600000 % 24) * 3600000 +
  (startDelta / 60000 % 60) * 60000 +
  (startDelta / 1000 % 60) * 1000 +
  startDelta % 1000

/-- The switch statement of handleEvent: dispatch on the numeric event kind and
transform the competitor's record, or fail.  params is the full split line,
timeEv the parsed bracketed timestamp. -/
def applyKind (idEv : Int) (timeEv : Int) (params : List String)
    (startDelta : Int) (laps : Int) (stat : competitorStat) :
    Except GoError competitorStat :=
  if idEv = 1 then
    .ok { stat with registered := true }
  else if idEv = 2 then
    match params[3]? with
    | none => .error (.runtimePanic "index out of range")
    | some startTimeStr =>
      match parseClock12 startTimeStr with
      | none => .error (.malformed "Ошибка парсинга времени старта из события")
      | some startTime => .ok { stat with startTime := startTime }
  else if idEv = 3 then
    .ok stat
  else if idEv = 4 then
    let stat1 := { stat with
      actualStart := timeEv
      lapsTime := stat.lapsTime ++ [(timeEv, zeroTime)] }
    let deadline := stat1.startTime + startDeltaDuration startDelta
    if stat1.actualStart > deadline then
      .ok { stat1 with
        notStarted := true
        comment := "Дисквалифицирован: старт после допустимого времени" }
    else
      .ok stat1
  else if idEv = 5 then
    match params[3]? with
    | none => .error (.runtimePanic "index out of range")
    | some _ => .ok stat
  else if idEv = 6 then
    match params[3]? with
    | none => .error (.runtimePanic "index out of range")
    | some _ => .ok { stat with hits := stat.hits + 1 }
  else if idEv = 7 then
    .ok stat
  else if idEv = 8 then
    .ok { stat with penaltyTime := stat.penaltyTime ++ [(timeEv, zeroTime)] }
  else if idEv = 9 then
    match stat.penaltyTime.getLast? with
    | none => .error (.runtimePanic "index out of range")
    | some _ => .ok { stat with penaltyTime := setLastEnd stat.penaltyTime timeEv }
  else if idEv = 10 then
    match stat.lapsTime.getLast? with
    | none => .error (.runtimePanic "index out of range")
    | some _ =>
      let closed := setLastEnd stat.lapsTime timeEv
      if (closed.length : Int) < laps then
        .ok { stat with lapsTime := closed ++ [(timeEv, zeroTime)] }
      else
        .ok { stat with lapsTime := closed, finishTime := timeEv }
  else if idEv = 11 then
    .ok { stat with
      notFinished := true
      comment := String.intercalate " " (params.drop 3) }
  else
    .ok stat

/-- handleEvent: split the line, index fields 0..2 (panicking when absent),
parse the bracketed timestamp and the kind code (returning an error when they
do not parse), lazily create the competitor's record and dispatch on the kind.
The start parameter is passed by the caller but never used, as in the source. -/
def handleEvent (event : String) (m : Ledger) (start startDelta : Int)
    (laps : Int) : Except GoError Ledger :=
  let params := goSplit event
  match params[1]?, params[2]? with
  | some idEvStr, some idComp =>
    let timeStr := params.headI
    if timeStr.length < 2 then
      .error (.runtimePanic "slice bounds out of range")
    else
      match parseClock12 (stripOuter timeStr) with
      | none => .error (.malformed "Ошибка парсинга времени события")
      | some timeEv =>
        match goAtoi idEvStr with
        | none => .error (.malformed "Ошибка преобразования ID события в число")
        | some idEv =>
          let m1 := ensureStat m idComp
          match applyKind idEv timeEv params startDelta laps (statOf m1 idComp) with
          | .error e => .error e
          | .ok stat2 => .ok (setStat m1 idComp stat2)
  | _, _ => .error (.runtimePanic "index out of range")

/-- The main loop: feed the event lines to handleEvent one at a time, stopping
at the first error (the program calls logrus.Fatal there). -/
def runEvents (events : List String) (m : Ledger) (start startDelta : Int)
    (laps : Int) : Except GoError Ledger :=
  match events with
  | [] => .ok m
  | e :: rest =>
    match handleEvent e m start startDelta laps with
    | .error err => .error err
    | .ok m2 => runEvents rest m2 start startDelta laps

/-- fmt %02d. -/
def pad2 (n : Int) : String :=
  if 0 ≤ n ∧ n < 10 then "0" ++ toString n else toString n

/-- fmt %03d. -/
def pad3 (n : Int) : String :=
  if 0 ≤ n ∧ n < 10 then "00" ++ toString n
  else if 0 ≤ n ∧ n < 100 then "0" ++ toString n
  else if -10 < n ∧ n < 0 then "-0" ++ toString (-n)
  else toString n

/-- int(d.Hours()) for a duration of d milliseconds. -/
def durHours (d : Int) : Int := Int.tdiv d 3600000

/-- int(d.Minutes()) % 60. -/
def durMinutes (d : Int) : Int := Int.tmod (Int.tdiv d 60000) 60

/-- int(d.Seconds()) % 60. -/
def durSeconds (d : Int) : Int := Int.tmod (Int.tdiv d 1000) 60

/-- d.Milliseconds() % 1000. -/
def durMillis (d : Int) : Int := Int.tmod d 1000

/-- The total-time column of one report line (writeFinalReport): a bracketed
status tag for not-started or not-finished competitors, otherwise the elapsed
time finishTime - actualStart rendered as \x7b%02d:%02d:%02d.%03d\x7d. -/
def totalTimeField (stat : competitorStat) : String :=
  if stat.notStarted then "[NotStarted]"
  else if stat.notFinished then "[NotFinished]"
  else
    let totalTime := stat.finishTime - stat.actualStart
    "\x7b" ++ pad2 (durHours totalTime) ++ ":" ++ pad2 (durMinutes totalTime) ++
      ":" ++ pad2 (durSeconds totalTime) ++ "." ++ pad3 (durMillis totalTime) ++ "\x7d"

/-- The duration portion of one closed lap entry in the lap list
(writeFinalReport): fmt %02d:%02d:%02d.%d — note the unpadded milliseconds,
unlike the penalty and total-time formats. -/
def lapDurationField (lapTime : Int) : String :=
  pad2 (durHours lapTime) ++ ":" ++ pad2 (durMinutes lapTime) ++ ":" ++
    pad2 (durSeconds lapTime) ++ "." ++ toString (durMillis lapTime)

/-- The shooting column of one report line: fmt "%d/%d" of hits and
5*firingLines. -/
def shootingField (hits firingLines : Int) : String :=
  toString hits ++ "/" ++ toString (5 * firingLines)

/-- The comparison closure handed to sort.Slice in writeFinalReport. -/
def reportLess (statI statJ : competitorStat) : Bool :=
  if statI.notStarted then true
  else if statJ.notStarted then false
  else if statI.notFinished then true
  else if statJ.notFinished then false
  else decide (statI.finishTime - statI.actualStart < statJ.finishTime - statJ.actualStart)

/-- Recognizer for an event line that a successful run applies as kind k for
competitor c: the positional fields are present and field 1 parses to k while
field 2 is c. -/
def isKindLineFor (k : Int) (c : String) (e : String) : Bool :=
  match (goSplit e)[1]?, (goSplit e)[2]? with
  | some ks, some comp => decide (goAtoi ks = some k ∧ comp = c)
  | _, _ => false

/-- The finishTime recorded for competitor c after a run, when the run
succeeded and c appears in the ledger. -/
def finishOf (r : Except GoError Ledger) (c : String) : Option Int :=
  match r with
  | .ok m => (lookupStat m c).map (fun s => s.finishTime)
  | .error _ => none

/-- The number of lap intervals recorded for competitor c after a run, when the
run succeeded and c appears in the ledger. -/
def lapsLenOf (r : Except GoError Ledger) (c : String) : Option Nat :=
  match r with
  | .ok m => (lookupStat m c).map (fun s => s.lapsTime.length)
  | .error _ => none

/-- Does a handleEvent outcome consist in the returned error the program labels
a malformed event? -/
def isMalformedResult : Except GoError Ledger → Bool
  | .error (.malformed _) => true
  | _ => false


theorem lookupStat_setStat_self {m : Ledger} {id : String} {x : competitorStat}
    (s : competitorStat) (h : lookupStat m id = some x) :
    lookupStat (setStat m id s) id = some s := by
  induction m with
  | nil => simp [lookupStat] at h
  | cons p rest ih =>
    by_cases hp : p.1 = id
    · simp [lookupStat, setStat, hp]
    · simp only [lookupStat, setStat, if_neg hp] at h ⊢
      exact ih h

theorem lookupStat_setStat_ne {m : Ledger} {id id' : String} {s : competitorStat}
    (h : id' ≠ id) : lookupStat (setStat m id s) id' = lookupStat m id' := by
  induction m with
  | nil => simp [setStat]
  | cons p rest ih =>
    by_cases hp : p.1 = id
    · have hp' : ¬ p.1 = id' := by rw [hp]; intro hh; exact h hh.symm
      rw [setStat, if_pos hp, lookupStat, if_neg hp', lookupStat, if_neg hp', ih]
    · rw [setStat, if_neg hp, lookupStat, lookupStat]
      by_cases hq : p.1 = id'
      · rw [if_pos hq, if_pos hq]
      · rw [if_neg hq, if_neg hq, ih]

theorem lookupStat_append_absent {m : Ledger} {id : String}
    (h : lookupStat m id = none) (s : competitorStat) :
    lookupStat (m ++ [(id, s)]) id = some s := by
  induction m with
  | nil => simp [lookupStat]
  | cons p rest ih =>
    by_cases hp : p.1 = id
    · simp [lookupStat, hp] at h
    · simp only [lookupStat, if_neg hp] at h
      simpa [lookupStat, hp] using ih h

theorem lookupStat_append_ne {m : Ledger} {id id' : String} {s : competitorStat}
    (h : id' ≠ id) : lookupStat (m ++ [(id, s)]) id' = lookupStat m id' := by
  induction m with
  | nil =>
    have : ¬ id = id' := fun hh => h hh.symm
    simp [lookupStat, this]
  | cons p rest ih =>
    by_cases hp : p.1 = id'
    · simp [lookupStat, hp]
    · simp [lookupStat, hp, ih]

theorem lookupStat_ensureStat_self (m : Ledger) (id : String) :
    lookupStat (ensureStat m id) id = some (statOf m id) := by
  unfold ensureStat statOf
  cases h : lookupStat m id with
  | none => simp [h, lookupStat_append_absent h]
  | some x => simp [h]

theorem lookupStat_ensureStat_ne {m : Ledger} {id id' : String} (h : id' ≠ id) :
    lookupStat (ensureStat m id) id' = lookupStat m id' := by
  unfold ensureStat
  cases hm : lookupStat m id with
  | none => simp [lookupStat_append_ne h]
  | some x => simp

theorem setLastEnd_concat (xs : List (Int × Int)) (p : Int × Int) (t : Int) :
    setLastEnd (xs ++ [p]) t = xs ++ [(p.1, t)] := by
  unfold setLastEnd
  rw [List.getLast?_concat, List.dropLast_concat]

theorem setLastEnd_length {l : List (Int × Int)} (h : l ≠ []) (t : Int) :
    (setLastEnd l t).length = l.length := by
  rcases List.eq_nil_or_concat l with rfl | ⟨xs, p, rfl⟩
  · exact absurd rfl h
  · rw [List.concat_eq_append, setLastEnd_concat]; simp

theorem setLastEnd_ne_nil {l : List (Int × Int)} (h : l ≠ []) (t : Int) :
    setLastEnd l t ≠ [] := by
  rcases List.eq_nil_or_concat l with rfl | ⟨xs, p, rfl⟩
  · exact absurd rfl h
  · rw [List.concat_eq_append, setLastEnd_concat]; simp

theorem statOf_ensureStat (m : Ledger) (id : String) :
    statOf (ensureStat m id) id = statOf m id := by
  unfold statOf
  rw [lookupStat_ensureStat_self]
  rfl

/-- What one successful dispatch does to the hit counter, the lap-interval list
and the finish time, for every event kind. -/
theorem applyKind_ok_spec {idEv timeEv : Int} {params : List String}
    {startDelta laps : Int} {stat stat' : competitorStat}
    (h : applyKind idEv timeEv params startDelta laps stat = .ok stat') :
    stat'.hits = stat.hits + (if idEv = 6 then 1 else 0) ∧
    stat'.lapsTime = (if idEv = 4 then stat.lapsTime ++ [(timeEv, zeroTime)]
      else if idEv = 10 then
        (if ((setLastEnd stat.lapsTime timeEv).length : Int) < laps
          then setLastEnd stat.lapsTime timeEv ++ [(timeEv, zeroTime)]
          else setLastEnd stat.lapsTime timeEv)
      else stat.lapsTime) ∧
    (idEv = 10 → stat.lapsTime ≠ []) ∧
    stat'.finishTime = (if idEv = 10 ∧ ¬ ((setLastEnd stat.lapsTime timeEv).length : Int) < laps
      then timeEv else stat.finishTime) := by
  unfold applyKind at h
  by_cases h1 : idEv = 1
  · subst h1
    norm_num at h
    subst h
    refine ⟨?_, ?_, ?_, ?_⟩ <;> norm_num
  by_cases h2 : idEv = 2
  · subst h2
    norm_num at h
    rcases hp3 : params[3]? with _ | sts
    · simp only [hp3] at h
      exact Except.noConfusion h
    · simp only [hp3] at h
      rcases hpc : parseClock12 sts with _ | st
      · simp only [hpc] at h
        exact Except.noConfusion h
      · simp only [hpc] at h
        injection h with h
        subst h
        refine ⟨?_, ?_, ?_, ?_⟩ <;> norm_num
  by_cases h3 : idEv = 3
  · subst h3
    norm_num at h
    subst h
    refine ⟨?_, ?_, ?_, ?_⟩ <;> norm_num
  by_cases h4 : idEv = 4
  · subst h4
    norm_num at h
    split at h <;>
      (injection h with h
       subst h
       refine ⟨?_, ?_, ?_, ?_⟩ <;> norm_num)
  by_cases h5 : idEv = 5
  · subst h5
    norm_num at h
    rcases hp3 : params[3]? with _ | sts
    · simp only [hp3] at h
      exact Except.noConfusion h
    · simp only [hp3] at h
      injection h with h
      subst h
      refine ⟨?_, ?_, ?_, ?_⟩ <;> norm_num
  by_cases h6 : idEv = 6
  · subst h6
    norm_num at h
    rcases hp3 : params[3]? with _ | sts
    · simp only [hp3] at h
      exact Except.noConfusion h
    · simp only [hp3] at h
      injection h with h
      subst h
      refine ⟨?_, ?_, ?_, ?_⟩ <;> norm_num
  by_cases h7 : idEv = 7
  · subst h7
    norm_num at h
    subst h
    refine ⟨?_, ?_, ?_, ?_⟩ <;> norm_num
  by_cases h8 : idEv = 8
  · subst h8
    norm_num at h
    subst h
    refine ⟨?_, ?_, ?_, ?_⟩ <;> norm_num
  by_cases h9 : idEv = 9
  · subst h9
    norm_num at h
    rcases hg : stat.penaltyTime.getLast? with _ | q
    · simp only [hg] at h
      exact Except.noConfusion h
    · simp only [hg] at h
      injection h with h
      subst h
      refine ⟨?_, ?_, ?_, ?_⟩ <;> norm_num
  by_cases h10 : idEv = 10
  · subst h10
    norm_num at h
    rcases hg : stat.lapsTime.getLast? with _ | q
    · simp only [hg] at h
      exact Except.noConfusion h
    · simp only [hg] at h
      have hne : stat.lapsTime ≠ [] := by
        intro hnil
        rw [hnil] at hg
        exact Option.noConfusion hg
      by_cases hlen : ((setLastEnd stat.lapsTime timeEv).length : Int) < laps
      · rw [if_pos hlen] at h
        injection h with h
        subst h
        refine ⟨by norm_num, ?_, fun _ => hne, ?_⟩ <;> norm_num [hlen]
      · rw [if_neg hlen] at h
        injection h with h
        subst h
        refine ⟨by norm_num, ?_, fun _ => hne, ?_⟩ <;> norm_num [hlen]
  by_cases h11 : idEv = 11
  · subst h11
    norm_num at h
    subst h
    refine ⟨?_, ?_, ?_, ?_⟩ <;> norm_num
  rw [if_neg h1, if_neg h2, if_neg h3, if_neg h4, if_neg h5, if_neg h6, if_neg h7,
    if_neg h8, if_neg h9, if_neg h10, if_neg h11] at h
  injection h with h
  subst h
  refine ⟨?_, ?_, fun hh => absurd hh h10, ?_⟩
  · rw [if_neg h6]; omega
  · rw [if_neg h4, if_neg h10]
  · rw [if_neg (fun hh : _ ∧ _ => absurd hh.1 h10)]


/-- Unknown event kinds are dispatched to the default branch, which leaves the
record unchanged and succeeds. -/
theorem applyKind_unknown {idEv : Int} (timeEv : Int) (params : List String)
    (startDelta laps : Int) (stat : competitorStat)
    (h : ¬ (1 ≤ idEv ∧ idEv ≤ 11)) :
    applyKind idEv timeEv params startDelta laps stat = .ok stat := by
  unfold applyKind
  rw [if_neg (by omega : ¬ idEv = 1), if_neg (by omega : ¬ idEv = 2),
    if_neg (by omega : ¬ idEv = 3), if_neg (by omega : ¬ idEv = 4),
    if_neg (by omega : ¬ idEv = 5), if_neg (by omega : ¬ idEv = 6),
    if_neg (by omega : ¬ idEv = 7), if_neg (by omega : ¬ idEv = 8),
    if_neg (by omega : ¬ idEv = 9), if_neg (by omega : ¬ idEv = 10),
    if_neg (by omega : ¬ idEv = 11)]

/-- Anatomy of one successful handleEvent call: the three positional fields are
present, timestamp and kind parse, the dispatch succeeds on the (lazily
created) record of the line's competitor, and the resulting ledger differs
from the old one exactly at that competitor. -/
theorem handleEvent_ok_elim {e : String} {m : Ledger} {s d laps : Int} {m' : Ledger}
    (h : handleEvent e m s d laps = .ok m') :
    ∃ ks comp k t stat',
      (goSplit e)[1]? = some ks ∧
      (goSplit e)[2]? = some comp ∧
      goAtoi ks = some k ∧
      parseClock12 (stripOuter ((goSplit e).headI)) = some t ∧
      applyKind k t (goSplit e) d laps (statOf m comp) = .ok stat' ∧
      lookupStat m' comp = some stat' ∧
      (∀ c, c ≠ comp → lookupStat m' c = lookupStat m c) ∧
      (∀ c, (lookupStat m c).isSome → (lookupStat m' c).isSome) := by
  unfold handleEvent at h
  rcases hg1 : (goSplit e)[1]? with _ | ks
  · simp only [hg1] at h
    exact Except.noConfusion h
  rcases hg2 : (goSplit e)[2]? with _ | comp
  · simp only [hg1, hg2] at h
    exact Except.noConfusion h
  simp only [hg1, hg2] at h
  split at h
  · exact Except.noConfusion h
  rcases hpc : parseClock12 (stripOuter ((goSplit e).headI)) with _ | t
  · simp only [hpc] at h
    exact Except.noConfusion h
  simp only [hpc] at h
  rcases hat : goAtoi ks with _ | k
  · simp only [hat] at h
    exact Except.noConfusion h
  simp only [hat] at h
  rcases happ : applyKind k t (goSplit e) d laps (statOf (ensureStat m comp) comp)
    with err | stat2
  · simp only [happ] at h
    exact Except.noConfusion h
  simp only [happ] at h
  injection h with h
  subst h
  rw [statOf_ensureStat] at happ
  refine ⟨ks, comp, k, t, stat2, rfl, rfl, hat, rfl, happ, ?_, ?_, ?_⟩
  · exact lookupStat_setStat_self stat2 (lookupStat_ensureStat_self m comp)
  · intro c hc
    rw [lookupStat_setStat_ne hc, lookupStat_ensureStat_ne hc]
  · intro c hc
    by_cases hc' : c = comp
    · subst hc'
      rw [lookupStat_setStat_self stat2 (lookupStat_ensureStat_self m c)]
      rfl
    · rw [lookupStat_setStat_ne hc', lookupStat_ensureStat_ne hc']
      exact hc

/-- reportLess is not a strict weak ordering: two not-started records are each
reported strictly below the other, so the sort.Slice contract's precondition
fails and the library leaves the report order undefined whenever two
competitors share the not-started (or the not-finished) tier. -/
theorem reportLess_not_asymmetric :
    reportLess { newCompetitorStat with notStarted := true }
        { newCompetitorStat with notStarted := true, hits := 1 } = true ∧
    reportLess { newCompetitorStat with notStarted := true, hits := 1 }
        { newCompetitorStat with notStarted := true } = true := by
  constructor <;> rfl


/-- Running one successful step adds one hit exactly when the line is a
target-hit line for the competitor in question. -/
theorem handleEvent_hits_step {e : String} {m : Ledger} {s d laps : Int} {m2 : Ledger}
    (hstep : handleEvent e m s d laps = .ok m2) (c : String) :
    (statOf m2 c).hits = (statOf m c).hits +
      (if isKindLineFor 6 c e = true then 1 else 0) := by
  obtain ⟨ks, comp, k, t, stat', hg1, hg2, hat, hpc, happ, hlook, hother, hmono⟩ :=
    handleEvent_ok_elim hstep
  by_cases hc : c = comp
  · subst hc
    have hstat2 : statOf m2 c = stat' := by
      unfold statOf
      rw [hlook]
      rfl
    obtain ⟨hhits, _, _, _⟩ := applyKind_ok_spec happ
    have hline : isKindLineFor 6 c e = decide (k = 6) := by
      unfold isKindLineFor
      rw [hg1, hg2]
      simp [hat]
    rw [hstat2, hhits, hline]
    by_cases hk : k = 6 <;> simp [hk]
  · have hsame : statOf m2 c = statOf m c := by
      unfold statOf
      rw [hother c hc]
    have hline : isKindLineFor 6 c e = false := by
      unfold isKindLineFor
      rw [hg1, hg2]
      simp
      intro _
      exact fun hh => hc hh.symm
    rw [hsame, hline]
    simp

/-- Summed over a successful run, the hit counter advances by exactly the
number of target-hit lines for the competitor. -/
theorem runEvents_hits_aux (events : List String) :
    ∀ (m : Ledger) (s d laps : Int) (m' : Ledger) (c : String),
    runEvents events m s d laps = .ok m' →
    (statOf m' c).hits = (statOf m c).hits + (events.countP (isKindLineFor 6 c) : Int) := by
  induction events with
  | nil =>
    intro m s d laps m' c h
    unfold runEvents at h
    injection h with h
    subst h
    simp
  | cons e rest ih =>
    intro m s d laps m' c h
    unfold runEvents at h
    rcases hstep : handleEvent e m s d laps with err | m2
    · simp only [hstep] at h
      exact Except.noConfusion h
    simp only [hstep] at h
    rw [ih m2 s d laps m' c h, handleEvent_hits_step hstep c, List.countP_cons]
    by_cases hline : isKindLineFor 6 c e = true <;> simp [hline] <;> push_cast <;> ring



/-- Invariant propagation for the lap-interval bound: as long as the remaining
run still contains at most 1 - (laps already open) started lines for the
competitor, the number of recorded lap intervals stays at or below the
configured lap count. -/
theorem runEvents_laps_aux (events : List String) :
    ∀ (m : Ledger) (s d laps : Int) (m' : Ledger) (c : String),
    runEvents events m s d laps = .ok m' →
    1 ≤ laps →
    ((statOf m c).lapsTime.length : Int) ≤ laps →
    events.countP (isKindLineFor 4 c) +
      (if (statOf m c).lapsTime = [] then 0 else 1) ≤ 1 →
    ((statOf m' c).lapsTime.length : Int) ≤ laps := by
  induction events with
  | nil =>
    intro m s d laps m' c h hlap hlen _
    unfold runEvents at h
    injection h with h
    subst h
    exact hlen
  | cons e rest ih =>
    intro m s d laps m' c h hlap hlen hbud
    unfold runEvents at h
    rcases hstep : handleEvent e m s d laps with err | m2
    · simp only [hstep] at h
      exact Except.noConfusion h
    simp only [hstep] at h
    rw [List.countP_cons] at hbud
    obtain ⟨ks, comp, k, t, stat', hg1, hg2, hat, hpc, happ, hlook, hother, hmono⟩ :=
      handleEvent_ok_elim hstep
    by_cases hc : c = comp
    case neg =>
      have hsame : statOf m2 c = statOf m c := by
        unfold statOf
        rw [hother c hc]
      refine ih m2 s d laps m' c h hlap ?_ ?_
      · rw [hsame]
        exact hlen
      · rw [hsame]
        omega
    case pos =>
      subst hc
      have hstat2 : statOf m2 c = stat' := by
        unfold statOf
        rw [hlook]
        rfl
      obtain ⟨_, hlaps, hne10, _⟩ := applyKind_ok_spec happ
      have hline : isKindLineFor 4 c e = decide (k = 4) := by
        unfold isKindLineFor
        rw [hg1, hg2]
        simp [hat]
      by_cases hk4 : k = 4
      · rw [hline, hk4] at hbud
        norm_num at hbud
        have hnil : (statOf m c).lapsTime = [] := by
          by_contra hne
          rw [if_neg hne] at hbud
          omega
        have hrest0 : rest.countP (isKindLineFor 4 c) = 0 := by
          rw [if_pos hnil] at hbud
          omega
        refine ih m2 s d laps m' c h hlap ?_ ?_
        · rw [hstat2, hlaps, if_pos hk4, hnil]
          simpa using hlap
        · rw [hstat2, hlaps, if_pos hk4, hnil, hrest0]
          simp
      · by_cases hk10 : k = 10
        · have hold : (statOf m c).lapsTime ≠ [] := hne10 hk10
          have hlaps10 : stat'.lapsTime =
              (if ((setLastEnd (statOf m c).lapsTime t).length : Int) < laps
                then setLastEnd (statOf m c).lapsTime t ++ [(t, zeroTime)]
                else setLastEnd (statOf m c).lapsTime t) := by
            rw [hlaps, if_neg hk4, if_pos hk10]
          have hsetlen : ((setLastEnd (statOf m c).lapsTime t).length : Int)
              = ((statOf m c).lapsTime.length : Int) := by
            rw [setLastEnd_length hold]
          have hnew_ne : stat'.lapsTime ≠ [] := by
            rw [hlaps10]
            split
            · simp
            · exact setLastEnd_ne_nil hold t
          have hnewlen : ((statOf m2 c).lapsTime.length : Int) ≤ laps := by
            rw [hstat2, hlaps10]
            split
            case isTrue hcond =>
              simp only [List.length_append, List.length_cons, List.length_nil]
              push_cast
              push_cast at hcond
              omega
            case isFalse hcond =>
              rw [hsetlen]
              exact hlen
          refine ih m2 s d laps m' c h hlap hnewlen ?_
          rw [if_neg hold] at hbud
          rw [hstat2, if_neg hnew_ne]
          omega
        · have hunch : stat'.lapsTime = (statOf m c).lapsTime := by
            rw [hlaps, if_neg hk4, if_neg hk10]
          refine ih m2 s d laps m' c h hlap ?_ ?_
          · rw [hstat2, hunch]
            exact hlen
          · rw [hstat2, hunch]
            omega


/-- C1: applying a left-penalty-loop (kind 9) or ended-lap (kind 10) event for
a competitor with no open interval of the matching kind does not return the
MalformedEvent error the specification prescribes: it panics with an
index-out-of-range runtime error (the code indexes the last element of an
empty slice).  When an open interval exists, the event closes exactly the most
recently opened interval by setting its end to the event timestamp. -/
theorem c1_close_without_open_interval :
    handleEvent "[10:00:00.000] 9 1" [] 0 0 1
      = Except.error (GoError.runtimePanic "index out of range") ∧
    handleEvent "[10:00:00.000] 10 1" [] 0 0 1
      = Except.error (GoError.runtimePanic "index out of range") ∧
    isMalformedResult (handleEvent "[10:00:00.000] 9 1" [] 0 0 1) = false ∧
    (∀ (stat : competitorStat) (xs : List (Int × Int)) (p : Int × Int)
        (timeEv startDelta laps : Int) (params : List String),
      applyKind 9 timeEv params startDelta laps { stat with penaltyTime := xs ++ [p] }
        = .ok { stat with penaltyTime := xs ++ [(p.1, timeEv)] }) := by
  refine ⟨by decide, by decide, by decide, ?_⟩
  intro stat xs p timeEv startDelta laps params
  unfold applyKind
  norm_num
  simp [setLastEnd_concat]

/-- C5 counterexample: the total-time field of a not-started competitor is the
square-bracketed literal [NotStarted], not the curly-braced tag the claim
names. -/
theorem c5_brackets_not_braces :
    totalTimeField { newCompetitorStat with notStarted := true, notFinished := true }
      = "[NotStarted]" ∧
    "[NotStarted]" ≠ "\x7bNotStarted\x7d" := by
  exact ⟨by decide, by decide⟩

/-- C5 amended: the total-time field is the literal [NotStarted] whenever
notStarted is set (taking precedence over notFinished), the literal
[NotFinished] when only notFinished is set, and otherwise the elapsed duration
finishTime - actualStart formatted as HH:MM:SS.mmm wrapped in curly braces. -/
theorem c5_total_time_field :
    (∀ stat : competitorStat, stat.notStarted = true →
      totalTimeField stat = "[NotStarted]") ∧
    (∀ stat : competitorStat, stat.notStarted = false → stat.notFinished = true →
      totalTimeField stat = "[NotFinished]") ∧
    (∀ stat : competitorStat, stat.notStarted = false → stat.notFinished = false →
      stat.finishTime - stat.actualStart = 3723004 →
      totalTimeField stat = "\x7b01:02:03.004\x7d") := by
  refine ⟨?_, ?_, ?_⟩
  · intro stat h
    simp [totalTimeField, h]
  · intro stat h1 h2
    simp [totalTimeField, h1, h2]
  · intro stat h1 h2 h3
    simp only [totalTimeField, h1, h2, Bool.false_eq_true, if_false]
    rw [h3]
    decide

/-- C5 witness: the three field shapes at concrete records. -/
theorem c5_total_time_field_witness :
    totalTimeField { newCompetitorStat with notStarted := true } = "[NotStarted]" ∧
    totalTimeField { newCompetitorStat with notFinished := true } = "[NotFinished]" ∧
    totalTimeField { newCompetitorStat with actualStart := 36000000, finishTime := 39723004 }
      = "\x7b01:02:03.004\x7d" :=
  ⟨c5_total_time_field.1 _ rfl,
   c5_total_time_field.2.1 _ rfl rfl,
   c5_total_time_field.2.2 _ rfl rfl (by decide)⟩

/-- C6: the lap-entry duration formatter prints the milliseconds with %d rather
than the %03d used by the penalty and total formatters, so a lap duration of
exactly 1 hour, 2 minutes, 3 seconds and 4 milliseconds renders as 01:02:03.4
and not as the zero-padded 01:02:03.004 the specification prescribes. -/
theorem c6_lap_millis_unpadded :
    lapDurationField 3723004 = "01:02:03.4" ∧ "01:02:03.4" ≠ "01:02:03.004" := by
  exact ⟨by decide, by decide⟩

/-- C8 counterexample: a draw event (kind 2) whose start-time payload field is
absent makes the program panic with an index-out-of-range runtime error; it
does not fail with the MalformedEvent error the claim asserts. -/
theorem c8_missing_payload_panics :
    handleEvent "[10:00:00.000] 2 1" [] 0 0 1
      = Except.error (GoError.runtimePanic "index out of range") ∧
    isMalformedResult (handleEvent "[10:00:00.000] 2 1" [] 0 0 1) = false := by
  exact ⟨by decide, by decide⟩

/-- C8 amended: an unparseable bracketed timestamp or a non-integer kind code
makes handleEvent return the corresponding malformed-event error, while an
absent kind-specific payload field (kinds 2, 5 and 6) makes it panic with an
index-out-of-range runtime error instead of returning a MalformedEvent. -/
theorem c8_decoder_failures :
    (∀ (e : String) (m : Ledger) (s d laps : Int) (ks comp : String),
      (goSplit e)[1]? = some ks → (goSplit e)[2]? = some comp →
      ¬ ((goSplit e).headI.length < 2) →
      parseClock12 (stripOuter ((goSplit e).headI)) = none →
      handleEvent e m s d laps
        = .error (.malformed "Ошибка парсинга времени события")) ∧
    (∀ (e : String) (m : Ledger) (s d laps t : Int) (ks comp : String),
      (goSplit e)[1]? = some ks → (goSplit e)[2]? = some comp →
      ¬ ((goSplit e).headI.length < 2) →
      parseClock12 (stripOuter ((goSplit e).headI)) = some t →
      goAtoi ks = none →
      handleEvent e m s d laps
        = .error (.malformed "Ошибка преобразования ID события в число")) ∧
    (∀ (e : String) (m : Ledger) (s d laps t k : Int) (ks comp : String),
      (goSplit e)[1]? = some ks → (goSplit e)[2]? = some comp →
      (goSplit e)[3]? = none →
      ¬ ((goSplit e).headI.length < 2) →
      parseClock12 (stripOuter ((goSplit e).headI)) = some t →
      goAtoi ks = some k →
      (k = 2 ∨ k = 5 ∨ k = 6) →
      handleEvent e m s d laps = .error (.runtimePanic "index out of range")) := by
  refine ⟨?_, ?_, ?_⟩
  · intro e m s d laps ks comp hg1 hg2 hlen hpc
    unfold handleEvent
    simp only [hg1, hg2]
    rw [if_neg hlen]
    simp only [hpc]
  · intro e m s d laps t ks comp hg1 hg2 hlen hpc hat
    unfold handleEvent
    simp only [hg1, hg2]
    rw [if_neg hlen]
    simp only [hpc, hat]
  · intro e m s d laps t k ks comp hg1 hg2 hg3 hlen hpc hat hk
    have happ : applyKind k t (goSplit e) d laps (statOf (ensureStat m comp) comp)
        = .error (.runtimePanic "index out of range") := by
      rcases hk with rfl | rfl | rfl <;>
        (unfold applyKind
         norm_num
         simp only [hg3])
    unfold handleEvent
    simp only [hg1, hg2]
    rw [if_neg hlen]
    simp only [hpc, hat, happ]

/-- C8 witness: the three decoder failure modes at concrete event lines. -/
theorem c8_decoder_failures_witness :
    handleEvent "[banana012:00] 1 5" [] 0 0 1
      = .error (.malformed "Ошибка парсинга времени события") ∧
    handleEvent "[10:00:00.000] x 5" [] 0 0 1
      = .error (.malformed "Ошибка преобразования ID события в число") ∧
    handleEvent "[10:00:00.000] 5 7" [] 0 0 1
      = .error (.runtimePanic "index out of range") :=
  ⟨c8_decoder_failures.1 "[banana012:00] 1 5" [] 0 0 1 "1" "5"
      (by decide) (by decide) (by decide) (by decide),
   c8_decoder_failures.2.1 "[10:00:00.000] x 5" [] 0 0 1 36000000 "x" "5"
      (by decide) (by decide) (by decide) (by decide) (by decide),
   c8_decoder_failures.2.2 "[10:00:00.000] 5 7" [] 0 0 1 36000000 5 "5" "7"
      (by decide) (by decide) (by decide) (by decide) (by decide) (by decide)
      (Or.inr (Or.inl rfl))⟩


/-- C2: a started event (kind 4) sets notStarted exactly when a draw has set
the scheduled start time and the event timestamp lies strictly after
scheduledStartTime + startInterval, the interval being the sum of the
configured delta's clock components; with the start time still at its zero
value the comparison can never fire because the zero time lies a year after
every parsed clock value, and an on-time start leaves the flag unchanged. -/
theorem c2_late_start_flag (stat : competitorStat) (timeEv startDelta laps : Int)
    (params : List String)
    (ht0 : 0 ≤ timeEv) (ht1 : timeEv < msPerDay)
    (hd0 : 0 ≤ startDelta) (hd1 : startDelta < msPerDay) :
    startDeltaDuration startDelta = startDelta ∧
    ∃ stat', applyKind 4 timeEv params startDelta laps stat = .ok stat' ∧
      (stat'.notStarted = true ↔
        (stat.notStarted = true ∨
          (stat.startTime ≠ zeroTime ∧
            stat.startTime + startDeltaDuration startDelta < timeEv))) := by
  have h86 : msPerDay = 86400000 := rfl
  have hz : zeroTime = 31622400000 := rfl
  rw [h86] at ht1 hd1
  have hdur : startDeltaDuration startDelta = startDelta := by
    unfold startDeltaDuration
    omega
  refine ⟨hdur, ?_⟩
  unfold applyKind
  norm_num
  by_cases hd : stat.startTime + startDeltaDuration startDelta < timeEv
  · rw [if_pos hd]
    refine ⟨_, rfl, ?_⟩
    have hne : stat.startTime ≠ zeroTime := by
      intro heq
      rw [heq, hz, hdur] at hd
      omega
    constructor
    · intro _
      exact Or.inr ⟨hne, hd⟩
    · intro _
      rfl
  · rw [if_neg hd]
    refine ⟨_, rfl, ?_⟩
    constructor
    · exact Or.inl
    · rintro (hh | ⟨hne, hlt⟩)
      · exact hh
      · exact absurd hlt hd

/-- C2 witness: a draw at 10:00:00.000, a one-minute interval and a start at
10:01:10.000 trip the late-start rule. -/
theorem c2_late_start_flag_witness :
    startDeltaDuration 60000 = 60000 ∧
    ∃ stat', applyKind 4 36070000 [] 60000 1
        { newCompetitorStat with startTime := 36000000 } = .ok stat' ∧
      (stat'.notStarted = true ↔
        (({ newCompetitorStat with startTime := 36000000 } : competitorStat).notStarted = true ∨
          (({ newCompetitorStat with startTime := 36000000 } : competitorStat).startTime ≠ zeroTime ∧
            ({ newCompetitorStat with startTime := 36000000 } : competitorStat).startTime
              + startDeltaDuration 60000 < 36070000))) :=
  c2_late_start_flag _ 36070000 60000 1 [] (by decide) (by decide) (by decide) (by decide)

/-- C3 counterexample: with a configured lap count of 1, two started events for
the same competitor leave two lap intervals in the record — the claimed
invariant fails when a competitor receives more than one started event. -/
theorem c3_two_started_exceed_lap_count :
    lapsLenOf (runEvents ["[10:00:00.000] 4 1", "[10:00:01.000] 4 1"] [] 0 0 1) "1"
      = some 2 ∧ ¬ ((2 : Int) ≤ 1) :=
  ⟨by decide, by decide⟩

/-- C3 amended: over any successful run from an empty ledger in which the
competitor receives at most one started line, and with a configured lap count
of at least one, the number of recorded lap intervals never exceeds the lap
count. -/
theorem c3_lap_count_invariant (events : List String) (s d laps : Int) (m : Ledger)
    (c : String) (hrun : runEvents events [] s d laps = .ok m) (hlap : 1 ≤ laps)
    (hcount : events.countP (isKindLineFor 4 c) ≤ 1) :
    ((statOf m c).lapsTime.length : Int) ≤ laps := by
  refine runEvents_laps_aux events [] s d laps m c hrun hlap ?_ ?_
  · rw [show statOf [] c = newCompetitorStat from rfl]
    show ((0 : Nat) : Int) ≤ laps
    omega
  · rw [show statOf [] c = newCompetitorStat from rfl]
    simpa [newCompetitorStat] using hcount

/-- C3 witness: a started line followed by an ended-lap line with lap count 1
keeps the lap list at one interval. -/
theorem c3_lap_count_invariant_witness :
    ((statOf [("1",
        { registered := false, startTime := zeroTime, actualStart := 36000000,
          lapsTime := [(36000000, 37800000)], penaltyTime := [], hits := 0,
          notStarted := false, notFinished := false, finishTime := 37800000,
          comment := "" })] "1").lapsTime.length : Int) ≤ 1 :=
  c3_lap_count_invariant ["[10:00:00.000] 4 1", "[10:30:00.000] 10 1"] 0 0 1 _ "1"
    (by decide) (by decide) (by decide)

/-- C7 counterexample: with lap count 1, an ended-lap event at 10:30 sets the
finish time, and a further ended-lap event at 10:40 assigns it again — the
claimed at-most-once assignment fails. -/
theorem c7_finish_reassigned :
    finishOf (runEvents ["[10:00:00.000] 4 1", "[10:30:00.000] 10 1"] [] 0 0 1) "1"
      = some 37800000 ∧
    finishOf (runEvents ["[10:00:00.000] 4 1", "[10:30:00.000] 10 1",
        "[10:40:00.000] 10 1"] [] 0 0 1) "1" = some 38400000 ∧
    (37800000 : Int) ≠ 38400000 :=
  ⟨by decide, by decide, by decide⟩

/-- C7 amended: no event kind other than ended-lap touches finishTime, and an
ended-lap event assigns finishTime to its own timestamp precisely when the
closed lap list has reached the configured lap count — so every further
ended-lap event arriving in that state reassigns it. -/
theorem c7_finish_assignment :
    (∀ (idEv timeEv : Int) (params : List String) (startDelta laps : Int)
        (stat stat' : competitorStat),
      applyKind idEv timeEv params startDelta laps stat = .ok stat' → idEv ≠ 10 →
      stat'.finishTime = stat.finishTime) ∧
    (∀ (timeEv : Int) (params : List String) (startDelta laps : Int)
        (stat : competitorStat) (xs : List (Int × Int)) (p : Int × Int),
      ∃ stat', applyKind 10 timeEv params startDelta laps
          { stat with lapsTime := xs ++ [p] } = .ok stat' ∧
        stat'.finishTime =
          (if (xs.length : Int) + 1 < laps then stat.finishTime else timeEv)) := by
  constructor
  · intro idEv timeEv params startDelta laps stat stat' h hne
    obtain ⟨_, _, _, hfin⟩ := applyKind_ok_spec h
    rw [hfin, if_neg (fun hh : _ ∧ _ => hne hh.1)]
  · intro timeEv params startDelta laps stat xs p
    unfold applyKind
    norm_num
    simp only [List.getLast?_concat, setLastEnd_concat]
    have hlen : (((xs ++ [(p.1, timeEv)]).length : Nat) : Int) = (xs.length : Int) + 1 := by
      simp
    rw [hlen]
    by_cases hc : (xs.length : Int) + 1 < laps
    · rw [if_pos hc, if_pos hc]
      exact ⟨_, rfl, rfl⟩
    · rw [if_neg hc, if_neg hc]
      exact ⟨_, rfl, rfl⟩

/-- C7 witness: a registration event leaves finishTime unchanged, and an
ended-lap event on a full lap list of length 1 with lap count 1 assigns it. -/
theorem c7_finish_assignment_witness :
    ({ newCompetitorStat with registered := true } : competitorStat).finishTime
      = newCompetitorStat.finishTime :=
  c7_finish_assignment.1 1 0 [] 0 1 newCompetitorStat _ (by decide) (by decide)

/-- C9: over any successful run from an empty ledger, a competitor's hit
counter equals exactly the number of target-hit (kind 6) lines applied for
that competitor — nothing caps it at 5 per firing line — and the rendered
shooting field with 7 hits and one firing line is the literal "7/5". -/
theorem c9_hits_uncapped :
    (∀ (events : List String) (s d laps : Int) (m : Ledger) (c : String),
      runEvents events [] s d laps = .ok m →
      (statOf m c).hits = (events.countP (isKindLineFor 6 c) : Int)) ∧
    shootingField 7 1 = "7/5" := by
  constructor
  · intro events s d laps m c h
    have h2 := runEvents_hits_aux events [] s d laps m c h
    rw [show statOf [] c = newCompetitorStat from rfl] at h2
    simpa [newCompetitorStat] using h2
  · decide

/-- C9 witness: seven target-hit lines leave a hit counter of 7. -/
theorem c9_hits_uncapped_witness :
    (statOf [("1",
        { registered := false, startTime := zeroTime, actualStart := zeroTime,
          lapsTime := [], penaltyTime := [], hits := 7, notStarted := false,
          notFinished := false, finishTime := zeroTime, comment := "" })] "1").hits
      = ((["[10:00:00.000] 6 1 1", "[10:00:01.000] 6 1 2", "[10:00:02.000] 6 1 3",
          "[10:00:03.000] 6 1 4", "[10:00:04.000] 6 1 5", "[10:00:05.000] 6 1 1",
          "[10:00:06.000] 6 1 2"].countP (isKindLineFor 6 "1") : Nat) : Int) :=
  c9_hits_uncapped.1 ["[10:00:00.000] 6 1 1", "[10:00:01.000] 6 1 2",
    "[10:00:02.000] 6 1 3", "[10:00:03.000] 6 1 4", "[10:00:04.000] 6 1 5",
    "[10:00:05.000] 6 1 1", "[10:00:06.000] 6 1 2"] 0 0 5 _ "1" (by decide)

/-- C10: a successfully handled event line — of any kind, known or unknown —
creates a zero-valued record for its competitor before the kind is dispatched
(so the dispatch acts on newCompetitorStat when the id was absent), the
ledger's key set grows monotonically, entries of other competitors are left
untouched, and unrecognized kinds succeed without changing the record. -/
theorem c10_record_creation :
    (∀ (e : String) (m : Ledger) (s d laps : Int) (m' : Ledger) (comp : String),
      handleEvent e m s d laps = .ok m' →
      (goSplit e)[2]? = some comp →
      ((lookupStat m' comp).isSome = true ∧
       (∀ c, (lookupStat m c).isSome = true → (lookupStat m' c).isSome = true) ∧
       (∀ c, c ≠ comp → lookupStat m' c = lookupStat m c) ∧
       (lookupStat m comp = none →
         ∃ k t stat', applyKind k t (goSplit e) d laps newCompetitorStat = .ok stat' ∧
           lookupStat m' comp = some stat'))) ∧
    (∀ idEv : Int, ¬ (1 ≤ idEv ∧ idEv ≤ 11) →
      ∀ (timeEv : Int) (params : List String) (startDelta laps : Int)
        (stat : competitorStat),
        applyKind idEv timeEv params startDelta laps stat = .ok stat) := by
  constructor
  · intro e m s d laps m' comp h hcomp
    obtain ⟨ks, comp2, k, t, stat', hg1, hg2, hat, hpc, happ, hlook, hother, hmono⟩ :=
      handleEvent_ok_elim h
    rw [hcomp] at hg2
    obtain rfl : comp2 = comp := (Option.some.inj hg2).symm
    refine ⟨by rw [hlook]; rfl, hmono, hother, ?_⟩
    intro hnone
    refine ⟨k, t, stat', ?_, hlook⟩
    unfold statOf at happ
    rw [hnone] at happ
    simpa using happ
  · intro idEv hk timeEv params startDelta laps stat
    exact applyKind_unknown timeEv params startDelta laps stat hk

/-- C10 witness: an unknown-kind line (99) for a fresh competitor id creates
its zero-valued record, and the unknown kind leaves any record unchanged. -/
theorem c10_record_creation_witness :
    ((lookupStat [("7", newCompetitorStat)] "7").isSome = true ∧
     (∀ c, (lookupStat ([] : Ledger) c).isSome = true →
        (lookupStat [("7", newCompetitorStat)] c).isSome = true) ∧
     (∀ c, c ≠ "7" →
        lookupStat [("7", newCompetitorStat)] c = lookupStat ([] : Ledger) c) ∧
     (lookupStat ([] : Ledger) "7" = none →
       ∃ k t stat', applyKind k t (goSplit "[10:00:00.000] 99 7") 0 1
           newCompetitorStat = .ok stat' ∧
         lookupStat [("7", newCompetitorStat)] "7" = some stat')) ∧
    applyKind 99 0 [] 0 1 newCompetitorStat = .ok newCompetitorStat :=
  ⟨c10_record_creation.1 "[10:00:00.000] 99 7" [] 0 0 1 [("7", newCompetitorStat)] "7"
      (by decide) (by decide),
   c10_record_creation.2 99 (by omega) 0 [] 0 1 newCompetitorStat⟩

end Biathlon
